import Mathlib

/-!
A verification development for the WebView message bridge of
`react-native-hyperswitch-click-to-pay`.

The bridge has two halves:
* the host-side client (`callFunction`, the client `handleMessage`, and the
  30-second timeout timer), embedded here as an executable state machine over
  `ClientState` driven by `BridgeEvent`s;
* the injected embedded-context server (`checkSDK` discovery polling and the
  injected `handleMessage`), embedded as the functions `checkSDK`,
  `serverTryBody` and `serverHandleMessage`.

Payloads travel as JSON, modelled by the inductive `Value`.
-/

namespace CTP

/-- JSON-serializable values: the only data that crosses the bridge. -/
inductive Value where
  | null
  | bool (b : Bool)
  | num (n : Int)
  | str (s : String)
  | arr (elems : List Value)
  | obj (fields : List (String × Value))

/-- JavaScript truthiness of a JSON value (arrays and objects are always
truthy, `null`/`false`/`0`/`""` are falsy). -/
def truthy : Value → Bool
  | .null => false
  | .bool b => b
  | .num n => n != 0
  | .str s => !s.isEmpty
  | .arr _ => true
  | .obj _ => true

/-- JavaScript truthiness of an optional string field (absent and `""` are
falsy). -/
def strTruthy : Option String → Bool
  | none => false
  | some s => !s.isEmpty

/-- Property access `o[k]` on a JSON object's field list. -/
def lookupField : List (String × Value) → String → Option Value
  | [], _ => none
  | (k, v) :: rest, key => if k == key then some v else lookupField rest key

/-- The `Message` interface of the client source: all fields optional. -/
structure Message where
  id : Option String := none
  type : Option String := none
  data : Option Value := none
  error : Option String := none

/-- The argument the client passes to `onSDKReady`:
`message.data?.methods || []`. -/
def readyMethodsArg (data : Option Value) : Value :=
  match data with
  | some (.obj fields) =>
    match lookupField fields "methods" with
    | some v => if truthy v then v else .arr []
    | none => .arr []
  | _ => .arr []

/-- Fuel-driven decimal digit rendering (the fuel `n + 1` always suffices);
models JavaScript's decimal string conversion of the counter in
`` `msg_${messageId.current++}` ``. -/
def decDigitsCore : Nat → Nat → List Char
  | 0, _ => []
  | fuel + 1, n =>
    if n < 10 then [Nat.digitChar n]
    else decDigitsCore fuel (n / 10) ++ [Nat.digitChar (n % 10)]

/-- Decimal digit list of `n`. -/
def decDigits (n : Nat) : List Char :=
  decDigitsCore (n + 1) n

/-- Decimal string of `n`. -/
def natDec (n : Nat) : String :=
  ⟨decDigits n⟩

/-- Correlation-id allocation: `` `msg_${counter}` ``. -/
def mkId (counter : Nat) : String :=
  "msg_" ++ natDec counter

/-- Numeric value of a decimal digit character. -/
def digitVal (c : Char) : Nat :=
  c.toNat - 48

/-- Decode a decimal digit list back to the number it renders. -/
def decodeDec (l : List Char) : Nat :=
  l.foldl (fun acc c => acc * 10 + digitVal c) 0

/-- The counter value a correlation id was allocated from (drops the
`"msg_"` prefix and decodes the decimal digits). -/
def idIndex (id : String) : Nat :=
  decodeDec (id.data.drop 4)

/-- One entry of the client's pending-call table (`callbacks` map): the
source stores the `resolve`/`reject` continuations; the embedding stores
the data the closures capture — the id, the function name and the call
time — and logs continuation invocations in `ClientState.log` instead. -/
structure PendingEntry where
  id : String
  fname : String
  callTime : Nat

/-- A `{id, functionName, args}` request the client posted to the WebView. -/
structure SentMessage where
  id : String
  functionName : String
  args : List Value

/-- An observable continuation invocation on the client: `resolve(data)`,
`reject(new Error(msg))` for a correlated call, or the immediate rejection
of a call made with no WebView attached (that promise has no table entry
and no id). -/
inductive Action where
  | resolved (t : Nat) (id : String) (data : Option Value)
  | rejected (t : Nat) (id : String) (msg : String)
  | rejectedNoChannel (t : Nat) (functionName : String)

/-- Does this action resolve or reject the promise of call `id`? -/
def Action.isFor (id : String) : Action → Bool
  | .resolved _ i _ => i == id
  | .rejected _ i _ => i == id
  | .rejectedNoChannel _ _ => false

/-- The client's mutable state: `webViewRef` presence, the `messageId`
counter, the `callbacks` pending-call table, plus observation logs for
posted requests and invoked callbacks (`resolve`/`reject`, `onSDKReady`,
`onError`). -/
structure ClientState where
  webViewAttached : Bool
  messageId : Nat
  callbacks : List PendingEntry
  sent : List SentMessage
  log : List Action
  readyLog : List Value
  errorLog : List String

/-- Fresh client session. -/
def initState (attached : Bool) : ClientState :=
  { webViewAttached := attached, messageId := 0, callbacks := [], sent := [],
    log := [], readyLog := [], errorLog := [] }

/-- The client-side timeout: `setTimeout(..., 30000)`. -/
def timeoutMs : Nat := 30000

/-- The client operation `callFunction(functionName, ...args)` at time `t`: reject immediately
when no WebView is attached; otherwise allocate `` `msg_${messageId++}` ``,
record the continuations in the table and post `{id, functionName, args}`.
(The 30-second timer it starts is delivered later as a
`BridgeEvent.timerFire` event.) -/
def callFunction (s : ClientState) (t : Nat) (functionName : String)
    (args : List Value) : ClientState :=
  if !s.webViewAttached then
    { s with log := s.log ++ [.rejectedNoChannel t functionName] }
  else
    let id := mkId s.messageId
    { s with
      messageId := s.messageId + 1,
      callbacks := s.callbacks ++ [⟨id, functionName, t⟩],
      sent := s.sent ++ [⟨id, functionName, args⟩] }

/-- The client's `handleMessage` on a successfully parsed inbound message:
`SDK_READY` messages invoke `onSDKReady(message.data?.methods || [])`;
otherwise a truthy `message.id` is looked up in the table, and a found
entry is deleted and then rejected (truthy `message.error`) or resolved
(with `message.data`). -/
def handleMessage (s : ClientState) (t : Nat) (message : Message) :
    ClientState :=
  if message.type = some "SDK_READY" then
    { s with readyLog := s.readyLog ++ [readyMethodsArg message.data] }
  else
    match message.id with
    | none => s
    | some mid =>
      if mid.isEmpty then s
      else
        match s.callbacks.find? (fun e => e.id == mid) with
        | none => s
        | some _ =>
          let removed :=
            { s with callbacks := s.callbacks.filter (fun e => e.id != mid) }
          if strTruthy message.error then
            { removed with
              log := removed.log ++ [.rejected t mid (message.error.getD "")] }
          else
            { removed with
              log := removed.log ++ [.resolved t mid message.data] }

/-- The timer scheduled by `callFunction` fires for `id`: if the entry is
still present it is deleted and rejected with
`` `Timeout calling ${functionName}` ``.  `setTimeout` never fires before
its delay, so the firing time is the call time plus `timeoutMs` plus a
nonnegative scheduler lag. -/
def timerFire (s : ClientState) (lag : Nat) (id : String) : ClientState :=
  match s.callbacks.find? (fun e => e.id == id) with
  | none => s
  | some e =>
    { s with
      callbacks := s.callbacks.filter (fun x => x.id != id),
      log := s.log ++
        [.rejected (e.callTime + timeoutMs + lag) id
          ("Timeout calling " ++ e.fname)] }

/-- Events driving the client within one bridge session. -/
inductive BridgeEvent where
  | call (t : Nat) (functionName : String) (args : List Value)
  | recv (t : Nat) (message : Message)
  | recvMalformed (t : Nat) (description : String)
  | timerFire (lag : Nat) (id : String)

/-- One client step.  Unparseable inbound payloads hit the `catch` of the
client's `handleMessage` and are routed to `onError`. -/
def step (s : ClientState) : BridgeEvent → ClientState
  | .call t functionName args => callFunction s t functionName args
  | .recv t message => handleMessage s t message
  | .recvMalformed _ description =>
    { s with errorLog := s.errorLog ++ [description] }
  | .timerFire lag id => timerFire s lag id

/-- Run a whole event trace. -/
def run (s : ClientState) (evs : List BridgeEvent) : ClientState :=
  evs.foldl step s

/-- How many times call `id`'s promise has been resolved or rejected. -/
def resolutionCount (s : ClientState) (id : String) : Nat :=
  s.log.countP (Action.isFor id)

/-- How many pending-table entries exist for `id`. -/
def pendingCount (s : ClientState) (id : String) : Nat :=
  s.callbacks.countP (fun e => e.id == id)

/-- Total accountability of call `id`: settled plus still pending. -/
def slotCount (s : ClientState) (id : String) : Nat :=
  resolutionCount s id + pendingCount s id

/-- Number of `callFunction` invocations in a trace. -/
def numCalls (evs : List BridgeEvent) : Nat :=
  evs.countP (fun ev => match ev with | .call _ _ _ => true | _ => false)

/-- Number of received messages bearing `type = "SDK_READY"`. -/
def countReadyRecv (evs : List BridgeEvent) : Nat :=
  evs.countP (fun ev =>
    match ev with
    | .recv _ message => message.type = some "SDK_READY"
    | _ => false)

/-- String `hay` contains `needle` as a contiguous substring. -/
def containsStr (hay needle : String) : Prop :=
  ∃ pre post, hay.data = pre ++ needle.data ++ post

/-- Character-wise lowercasing (JavaScript-style case folding for ASCII). -/
def toLowerStr (s : String) : String :=
  ⟨s.data.map Char.toLower⟩

/-- A thrown JavaScript exception, as the injected code observes it:
`message` is `error.message` (absent on non-`Error` throwables, possibly
empty), `stringForm` is `String(error)`. -/
structure Exc where
  message : Option String
  stringForm : String

/-- The error string the injected `catch` serializes:
`error.message || String(error)`. -/
def Exc.wireMsg (e : Exc) : String :=
  match e.message with
  | some m => if m.isEmpty then e.stringForm else m
  | none => e.stringForm

/-- The exception `new Error(msg)`: `message` is `msg`, `String(error)` is
`"Error: " ++ msg`. -/
def jsError (msg : String) : Exc :=
  ⟨some msg, "Error: " ++ msg⟩

/-- A vendor SDK function: takes the argument list, and either returns a
result or raises/rejects with an exception. -/
def VendorFunc : Type :=
  List Value → Except Exc Value

/-- The vendor service's method table (`VSDK`): its callable members, in
enumeration order.  `Object.keys(VSDK)` is `vsdk.map Prod.fst`; members
that are not functions fail the `typeof VSDK[f] !== 'function'` check just
like absent ones, so the table only carries the callable members. -/
def VSDK : Type :=
  List (String × VendorFunc)

/-- A parsed Call Request as the injected `handleMessage` destructures it:
`const { id, functionName, args } = message` (`args` may be absent; the
invocation uses `...(args || [])`). -/
structure CallRequest where
  id : String
  functionName : String
  args : Option (List Value)

/-- The `try` body of the injected `handleMessage`: throw `SDK not ready`
when the ready flag is unset, throw the not-found error when
`functionName` is not callable, otherwise invoke the vendor function and
build the success response `{id, data: result}` — or propagate the
exception the invocation raised. -/
def serverTryBody (sdkReady : Bool) (vsdk : VSDK) (req : CallRequest) :
    Except Exc Message :=
  if !sdkReady then
    .error (jsError "SDK not ready")
  else
    match vsdk.lookup req.functionName with
    | none =>
      .error (jsError ("Function " ++ req.functionName ++
        " not found. Available: " ++
        String.intercalate ", " (vsdk.map Prod.fst)))
    | some f =>
      match f (req.args.getD []) with
      | .ok result => .ok { id := some req.id, data := some result }
      | .error e => .error e

/-- What one run of the injected `handleMessage` does on the channel. -/
inductive ServerOutcome where
  | posted (response : Message)
  | uncaughtReferenceError

/-- The whole injected `handleMessage`: a successful `try` body posts its
response.  When the `try` body throws, the `catch` block evaluates
`message.id` — but `message` is `const`-bound inside the `try` block and
is not in scope in the `catch` block, so that evaluation raises a
`ReferenceError` before `postMessage` runs: the error response is never
posted, and the async handler ends with an uncaught rejection. -/
def serverHandleMessage (sdkReady : Bool) (vsdk : VSDK) (req : CallRequest) :
    ServerOutcome :=
  match serverTryBody sdkReady vsdk req with
  | .ok response => .posted response
  | .error _ => .uncaughtReferenceError

/-- The response the `catch` block constructs (and §4.2 of the spec
describes) but, because of the scope slip above, never posts. -/
def intendedCatchResponse (req : CallRequest) (e : Exc) : Message :=
  { id := some req.id, error := some e.wireMsg }

/-- Discovery poll bound: `const maxAttempts = 20`. -/
def maxAttempts : Nat := 20

/-- Discovery poll spacing: `setTimeout(checkSDK, 500)`. -/
def pollDelayMs : Nat := 500

/-- The success Ready Announcement:
`{type: 'SDK_READY', data: {methods: Object.keys(VSDK)}}`. -/
def sdkReadyMsg (methods : List String) : Message :=
  { type := some "SDK_READY",
    data := some (.obj [("methods", .arr (methods.map .str))]) }

/-- The failure Ready Announcement:
`{type: 'SDK_READY', error: 'VSDK not found'}` — it carries no `data`. -/
def sdkFailMsg : Message :=
  { type := some "SDK_READY", error := some "VSDK not found" }

/-- Everything one discovery run does: the Ready Announcements it posts,
whether `setupListeners()` was reached, the final `checkAttempts` value,
and the time of each `checkSDK` invocation. -/
structure DiscoveryResult where
  posts : List Message
  listenersAttached : Bool
  attempts : Nat
  attemptTimes : List Nat

/-- The injected `checkSDK` polling loop, started as
`checkSDK vsdkAt 0 0`.  `vsdkAt a` is the vendor service's global as
observed by attempt number `a` (`none` while `typeof VSDK === 'undefined'`
or falsy).  Each invocation increments `checkAttempts`; a truthy `VSDK`
posts the success announcement and attaches the listeners; otherwise the
next poll is scheduled `pollDelayMs` later until `maxAttempts` is reached,
when the failure announcement is posted. -/
def checkSDK (vsdkAt : Nat → Option VSDK) (checkAttempts now : Nat) :
    DiscoveryResult :=
  let a := checkAttempts + 1
  match vsdkAt a with
  | some table =>
    { posts := [sdkReadyMsg (table.map Prod.fst)],
      listenersAttached := true, attempts := a, attemptTimes := [now] }
  | none =>
    if _h : a < maxAttempts then
      let rest := checkSDK vsdkAt a (now + pollDelayMs)
      { rest with attemptTimes := now :: rest.attemptTimes }
    else
      { posts := [sdkFailMsg],
        listenersAttached := false, attempts := a, attemptTimes := [now] }
termination_by maxAttempts - checkAttempts
decreasing_by omega

/-- The vendor table of the spec's function-not-found scenario:
`["initialize","getCards","checkout"]`. -/
def demoVSDK : VSDK :=
  [("initialize", fun _ => .ok (.obj [("ok", .bool true)])),
   ("getCards", fun _ => .ok (.arr [])),
   ("checkout", fun _ => .ok .null)]

/-- A vendor table whose `initialize` raises `new Error('boom')`. -/
def throwingVSDK : VSDK :=
  [("initialize", fun _ => .error (jsError "boom"))]

/-! ## Decimal rendering and correlation-id lemmas -/

lemma digitVal_digitChar (d : Nat) (h : d < 10) :
    digitVal (Nat.digitChar d) = d := by
  interval_cases d <;> rfl

lemma decodeDec_append_one (l : List Char) (c : Char) :
    decodeDec (l ++ [c]) = decodeDec l * 10 + digitVal c := by
  simp [decodeDec]

lemma decodeDec_decDigitsCore (fuel : Nat) :
    ∀ n, n < fuel → decodeDec (decDigitsCore fuel n) = n := by
  induction fuel with
  | zero => intro n h; exact absurd h (Nat.not_lt_zero n)
  | succ fuel ih =>
    intro n h
    rw [decDigitsCore]
    by_cases h10 : n < 10
    · rw [if_pos h10]
      simp [decodeDec, digitVal_digitChar n h10]
    · rw [if_neg h10]
      rw [decodeDec_append_one]
      have hdiv : n / 10 < fuel := by
        have h1 : n / 10 < n := Nat.div_lt_self (by omega) (by omega)
        omega
      rw [ih (n / 10) hdiv]
      rw [digitVal_digitChar (n % 10) (Nat.mod_lt n (by omega))]
      have := Nat.div_add_mod n 10
      omega

lemma decodeDec_decDigits (n : Nat) : decodeDec (decDigits n) = n :=
  decodeDec_decDigitsCore (n + 1) n (Nat.lt_succ_self n)

lemma natDec_injective : Function.Injective natDec := by
  intro a b h
  have hdata : decDigits a = decDigits b := congrArg String.data h
  have := congrArg decodeDec hdata
  rwa [decodeDec_decDigits, decodeDec_decDigits] at this

lemma mkId_data (k : Nat) : (mkId k).data = "msg_".data ++ decDigits k := rfl

lemma mkId_injective : Function.Injective mkId := by
  intro a b h
  have hdata : (mkId a).data = (mkId b).data := congrArg String.data h
  rw [mkId_data, mkId_data] at hdata
  have : decDigits a = decDigits b := List.append_cancel_left hdata
  exact natDec_injective (congrArg String.mk this)

lemma idIndex_mkId (k : Nat) : idIndex (mkId k) = k := by
  rw [idIndex, mkId_data]
  rw [show (4 : Nat) = ("msg_".data).length from rfl]
  rw [List.drop_left]
  exact decodeDec_decDigits k

lemma mkId_ne_empty (k : Nat) : (mkId k).isEmpty = false := by
  rw [Bool.eq_false_iff]
  intro h
  have : mkId k = "" := (String.isEmpty_iff (mkId k)).mp h
  have hdata := congrArg String.data this
  rw [mkId_data] at hdata
  simp at hdata

/-! ## Counting helpers over the pending-call table -/

lemma countP_filter_ne_self (l : List PendingEntry) (id : String) :
    (l.filter (fun e => e.id != id)).countP (fun e => e.id == id) = 0 := by
  rw [List.countP_eq_zero]
  intro e he
  rw [List.mem_filter] at he
  simpa using he.2

lemma countP_filter_ne_other (l : List PendingEntry) (id mid : String)
    (h : id ≠ mid) :
    (l.filter (fun e => e.id != mid)).countP (fun e => e.id == id)
      = l.countP (fun e => e.id == id) := by
  rw [List.countP_filter]
  apply List.countP_congr
  intro e _
  by_cases he : e.id = id
  · simp [he, h]
  · simp [he]

lemma find?_none_of_countP_zero (l : List PendingEntry) (mid : String)
    (h : l.countP (fun e => e.id == mid) = 0) :
    l.find? (fun e => e.id == mid) = none := by
  rw [List.find?_eq_none]
  rw [List.countP_eq_zero] at h
  exact h

lemma countP_pos_of_find?_some (l : List PendingEntry) (mid : String)
    (e : PendingEntry) (h : l.find? (fun x => x.id == mid) = some e) :
    0 < l.countP (fun x => x.id == mid) := by
  rw [List.countP_pos_iff]
  refine ⟨e, List.mem_of_find?_eq_some h, ?_⟩
  exact @List.find?_some _ (fun x => x.id == mid) e l h

/-! ## Branch equations of the client's step functions -/

lemma handleMessage_ready (s : ClientState) (t : Nat) (message : Message)
    (h : message.type = some "SDK_READY") :
    handleMessage s t message
      = { s with readyLog := s.readyLog ++ [readyMethodsArg message.data] } := by
  rw [handleMessage, if_pos h]

lemma handleMessage_no_id (s : ClientState) (t : Nat) (message : Message)
    (h : message.type ≠ some "SDK_READY") (hid : message.id = none) :
    handleMessage s t message = s := by
  rw [handleMessage, if_neg h, hid]

lemma handleMessage_empty_id (s : ClientState) (t : Nat) (message : Message)
    (mid : String) (h : message.type ≠ some "SDK_READY")
    (hid : message.id = some mid) (hmt : mid.isEmpty = true) :
    handleMessage s t message = s := by
  simp [handleMessage, h, hid, hmt]

lemma handleMessage_miss (s : ClientState) (t : Nat) (message : Message)
    (mid : String) (h : message.type ≠ some "SDK_READY")
    (hid : message.id = some mid) (hmt : mid.isEmpty = false)
    (hfind : s.callbacks.find? (fun e => e.id == mid) = none) :
    handleMessage s t message = s := by
  simp [handleMessage, h, hid, hmt, hfind]

lemma handleMessage_hit_reject (s : ClientState) (t : Nat) (message : Message)
    (mid : String) (e : PendingEntry) (h : message.type ≠ some "SDK_READY")
    (hid : message.id = some mid) (hmt : mid.isEmpty = false)
    (hfind : s.callbacks.find? (fun x => x.id == mid) = some e)
    (herr : strTruthy message.error = true) :
    handleMessage s t message
      = { s with
          callbacks := s.callbacks.filter (fun x => x.id != mid),
          log := s.log ++ [.rejected t mid (message.error.getD "")] } := by
  simp [handleMessage, h, hid, hmt, hfind, herr]

lemma handleMessage_hit_resolve (s : ClientState) (t : Nat) (message : Message)
    (mid : String) (e : PendingEntry) (h : message.type ≠ some "SDK_READY")
    (hid : message.id = some mid) (hmt : mid.isEmpty = false)
    (hfind : s.callbacks.find? (fun x => x.id == mid) = some e)
    (herr : strTruthy message.error = false) :
    handleMessage s t message
      = { s with
          callbacks := s.callbacks.filter (fun x => x.id != mid),
          log := s.log ++ [.resolved t mid message.data] } := by
  simp [handleMessage, h, hid, hmt, hfind, herr]

lemma timerFire_miss (s : ClientState) (lag : Nat) (id : String)
    (hfind : s.callbacks.find? (fun e => e.id == id) = none) :
    timerFire s lag id = s := by
  rw [timerFire, hfind]

lemma timerFire_hit (s : ClientState) (lag : Nat) (id : String)
    (e : PendingEntry)
    (hfind : s.callbacks.find? (fun x => x.id == id) = some e) :
    timerFire s lag id
      = { s with
          callbacks := s.callbacks.filter (fun x => x.id != id),
          log := s.log ++
            [.rejected (e.callTime + timeoutMs + lag) id
              ("Timeout calling " ++ e.fname)] } := by
  rw [timerFire, hfind]

lemma callFunction_attached (s : ClientState) (t : Nat)
    (functionName : String) (args : List Value) (h : s.webViewAttached = true) :
    callFunction s t functionName args
      = { s with
          messageId := s.messageId + 1,
          callbacks := s.callbacks ++ [⟨mkId s.messageId, functionName, t⟩],
          sent := s.sent ++ [⟨mkId s.messageId, functionName, args⟩] } := by
  rw [callFunction, h]
  simp

lemma callFunction_detached (s : ClientState) (t : Nat)
    (functionName : String) (args : List Value)
    (h : s.webViewAttached = false) :
    callFunction s t functionName args
      = { s with log := s.log ++ [.rejectedNoChannel t functionName] } := by
  rw [callFunction, h]
  simp

/-! ## The pending-table invariant -/

/-- Session invariant of the client: every call id is accounted for at most
once (settled or pending, never both), and ids the counter has not yet
allocated are untouched. -/
def Inv (s : ClientState) : Prop :=
  (∀ id, slotCount s id ≤ 1) ∧
  (∀ k, s.messageId ≤ k → slotCount s (mkId k) = 0)

lemma Inv_initState (attached : Bool) : Inv (initState attached) := by
  constructor <;> intro _ <;>
    simp [initState, slotCount, resolutionCount, pendingCount]

lemma run_nil (s : ClientState) : run s [] = s := rfl

lemma run_cons (s : ClientState) (ev : BridgeEvent) (evs : List BridgeEvent) :
    run s (ev :: evs) = run (step s ev) evs := rfl

lemma run_append (s : ClientState) (evs1 evs2 : List BridgeEvent) :
    run s (evs1 ++ evs2) = run (run s evs1) evs2 := by
  simp [run]

lemma slotCount_call_attached (s : ClientState) (t : Nat) (name : String)
    (args : List Value) (h : s.webViewAttached = true) (id : String) :
    slotCount (callFunction s t name args) id
      = slotCount s id + (if mkId s.messageId == id then 1 else 0) := by
  rw [callFunction_attached s t name args h]
  cases hb : (mkId s.messageId == id) <;>
    simp [slotCount, resolutionCount, pendingCount, List.countP_append,
      List.countP_cons, hb] <;>
    omega

lemma slotCount_call_detached (s : ClientState) (t : Nat) (name : String)
    (args : List Value) (h : s.webViewAttached = false) (id : String) :
    slotCount (callFunction s t name args) id = slotCount s id := by
  rw [callFunction_detached s t name args h]
  simp [slotCount, resolutionCount, pendingCount, List.countP_append,
    List.countP_cons, Action.isFor]

/-- State after an entry for `mid` is found, deleted, and its continuation
invoked (shared shape of the response path and the timeout path). -/
def hitState (s : ClientState) (mid : String) (act : Action) : ClientState :=
  { s with
    callbacks := s.callbacks.filter (fun x => x.id != mid),
    log := s.log ++ [act] }

lemma slotCount_hit_self (s : ClientState) (mid : String) (act : Action)
    (hact : Action.isFor mid act = true) :
    slotCount (hitState s mid act) mid = resolutionCount s mid + 1 := by
  simp [hitState, slotCount, resolutionCount, pendingCount,
    List.countP_append, List.countP_cons, hact, countP_filter_ne_self]

lemma slotCount_hit_other (s : ClientState) (mid : String) (act : Action)
    (id : String) (hne : id ≠ mid) (hact : Action.isFor id act = false) :
    slotCount (hitState s mid act) id = slotCount s id := by
  simp [hitState, slotCount, resolutionCount, pendingCount,
    List.countP_append, List.countP_cons, hact,
    countP_filter_ne_other s.callbacks id mid hne]

lemma pend_res_of_find?_some (s : ClientState) (mid : String)
    (e : PendingEntry) (hb : ∀ id, slotCount s id ≤ 1)
    (hfind : s.callbacks.find? (fun x => x.id == mid) = some e) :
    pendingCount s mid = 1 ∧ resolutionCount s mid = 0 := by
  have hp := countP_pos_of_find?_some s.callbacks mid e hfind
  have := hb mid
  unfold slotCount at this
  unfold pendingCount at *
  omega

lemma Inv_hit (s : ClientState) (mid : String) (act : Action)
    (e : PendingEntry)
    (hfind : s.callbacks.find? (fun x => x.id == mid) = some e)
    (hact : ∀ id, Action.isFor id act = (mid == id))
    (h : Inv s) : Inv (hitState s mid act) := by
  obtain ⟨hbound, hfresh⟩ := h
  constructor
  · intro id
    by_cases hid : id = mid
    · subst hid
      rw [slotCount_hit_self s id act (by simp [hact])]
      have := (pend_res_of_find?_some s id e hbound hfind).2
      omega
    · rw [slotCount_hit_other s mid act id hid (by simp [hact]; exact fun hc => absurd hc.symm hid)]
      exact hbound id
  · intro k hk
    by_cases hid : mkId k = mid
    · exfalso
      have h0 := hfresh k hk
      have hp := countP_pos_of_find?_some s.callbacks mid e hfind
      rw [← hid] at hp
      unfold slotCount pendingCount at *
      omega
    · rw [slotCount_hit_other s mid act (mkId k) hid (by simp [hact]; exact fun hc => absurd hc.symm hid)]
      exact hfresh k hk

lemma Inv_step (s : ClientState) (ev : BridgeEvent) (h : Inv s) :
    Inv (step s ev) := by
  obtain ⟨hbound, hfresh⟩ := h
  cases ev with
  | call t name args =>
    show Inv (callFunction s t name args)
    cases hatt : s.webViewAttached
    · constructor
      · intro id
        rw [slotCount_call_detached s t name args hatt id]
        exact hbound id
      · intro k hk
        rw [slotCount_call_detached s t name args hatt (mkId k)]
        rw [callFunction_detached s t name args hatt] at hk
        exact hfresh k hk
    · constructor
      · intro id
        rw [slotCount_call_attached s t name args hatt id]
        by_cases hid : mkId s.messageId = id
        · have h0 := hfresh s.messageId (Nat.le_refl _)
          rw [hid] at h0
          simp [hid, h0]
        · simp only [beq_iff_eq, hid, if_false]
          have := hbound id
          omega
      · intro k hk
        rw [callFunction_attached s t name args hatt] at hk
        simp only at hk
        rw [slotCount_call_attached s t name args hatt (mkId k)]
        have hne : mkId s.messageId ≠ mkId k :=
          fun hc => by have := mkId_injective hc; omega
        simp only [beq_iff_eq, hne, if_false]
        have := hfresh k (by omega)
        omega
  | recv t message =>
    show Inv (handleMessage s t message)
    by_cases hty : message.type = some "SDK_READY"
    · rw [handleMessage_ready s t message hty]
      exact ⟨fun id => hbound id, fun k hk => hfresh k hk⟩
    · rcases hid : message.id with _ | mid
      · rw [handleMessage_no_id s t message hty hid]
        exact ⟨hbound, hfresh⟩
      · cases hmt : mid.isEmpty
        · rcases hfind : s.callbacks.find? (fun e => e.id == mid) with _ | e
          · rw [handleMessage_miss s t message mid hty hid hmt hfind]
            exact ⟨hbound, hfresh⟩
          · cases herr : strTruthy message.error
            · rw [handleMessage_hit_resolve s t message mid e hty hid hmt
                hfind herr]
              exact Inv_hit s mid (.resolved t mid message.data) e hfind
                (fun id => rfl) ⟨hbound, hfresh⟩
            · rw [handleMessage_hit_reject s t message mid e hty hid hmt
                hfind herr]
              exact Inv_hit s mid (.rejected t mid (message.error.getD "")) e
                hfind (fun id => rfl) ⟨hbound, hfresh⟩
        · rw [handleMessage_empty_id s t message mid hty hid hmt]
          exact ⟨hbound, hfresh⟩
  | recvMalformed t description =>
    exact ⟨fun id => hbound id, fun k hk => hfresh k hk⟩
  | timerFire lag id =>
    show Inv (timerFire s lag id)
    rcases hfind : s.callbacks.find? (fun e => e.id == id) with _ | e
    · rw [timerFire_miss s lag id hfind]
      exact ⟨hbound, hfresh⟩
    · rw [timerFire_hit s lag id e hfind]
      exact Inv_hit s id
        (.rejected (e.callTime + timeoutMs + lag) id
          ("Timeout calling " ++ e.fname)) e hfind (fun i => rfl)
        ⟨hbound, hfresh⟩

lemma Inv_run (s : ClientState) (evs : List BridgeEvent) (h : Inv s) :
    Inv (run s evs) := by
  induction evs generalizing s with
  | nil => exact h
  | cons ev evs ih => exact ih (step s ev) (Inv_step s ev h)

/-! ## Monotonicity and the exactly-once argument -/

lemma step_log_extends (s : ClientState) (ev : BridgeEvent) :
    ∃ l2, (step s ev).log = s.log ++ l2 := by
  cases ev with
  | call t name args =>
    cases hatt : s.webViewAttached
    · exact ⟨[.rejectedNoChannel t name],
        by rw [show step s (.call t name args) = callFunction s t name args
          from rfl, callFunction_detached s t name args hatt]⟩
    · exact ⟨[], by
        rw [show step s (.call t name args) = callFunction s t name args
          from rfl, callFunction_attached s t name args hatt]
        simp⟩
  | recv t message =>
    show ∃ l2, (handleMessage s t message).log = s.log ++ l2
    by_cases hty : message.type = some "SDK_READY"
    · exact ⟨[], by rw [handleMessage_ready s t message hty]; simp⟩
    · rcases hid : message.id with _ | mid
      · exact ⟨[], by rw [handleMessage_no_id s t message hty hid]; simp⟩
      · cases hmt : mid.isEmpty
        · rcases hfind : s.callbacks.find? (fun e => e.id == mid) with _ | e
          · exact ⟨[], by
              rw [handleMessage_miss s t message mid hty hid hmt hfind]; simp⟩
          · cases herr : strTruthy message.error
            · exact ⟨[.resolved t mid message.data], by
                rw [handleMessage_hit_resolve s t message mid e hty hid hmt
                  hfind herr]⟩
            · exact ⟨[.rejected t mid (message.error.getD "")], by
                rw [handleMessage_hit_reject s t message mid e hty hid hmt
                  hfind herr]⟩
        · exact ⟨[], by
            rw [handleMessage_empty_id s t message mid hty hid hmt]; simp⟩
  | recvMalformed t description => exact ⟨[], by simp [step]⟩
  | timerFire lag id =>
    show ∃ l2, (timerFire s lag id).log = s.log ++ l2
    rcases hfind : s.callbacks.find? (fun e => e.id == id) with _ | e
    · exact ⟨[], by rw [timerFire_miss s lag id hfind]; simp⟩
    · exact ⟨[.rejected (e.callTime + timeoutMs + lag) id
        ("Timeout calling " ++ e.fname)], by rw [timerFire_hit s lag id e hfind]⟩

lemma resolutionCount_step_mono (s : ClientState) (ev : BridgeEvent)
    (id : String) :
    resolutionCount s id ≤ resolutionCount (step s ev) id := by
  obtain ⟨l2, hl⟩ := step_log_extends s ev
  unfold resolutionCount
  rw [hl, List.countP_append]
  exact Nat.le_add_right _ _

lemma resolutionCount_run_mono (s : ClientState) (evs : List BridgeEvent)
    (id : String) :
    resolutionCount s id ≤ resolutionCount (run s evs) id := by
  induction evs generalizing s with
  | nil => exact Nat.le_refl _
  | cons ev evs ih =>
    exact Nat.le_trans (resolutionCount_step_mono s ev id) (ih (step s ev))

lemma resolutionCount_le_slotCount (s : ClientState) (id : String) :
    resolutionCount s id ≤ slotCount s id :=
  Nat.le_add_right _ _

/-- Once the timer for a live call id fires, that call is settled exactly
once. -/
lemma resolutionCount_after_fire (s : ClientState) (lag : Nat) (id : String)
    (hb : ∀ i, slotCount s i ≤ 1) (hslot : slotCount s id = 1) :
    resolutionCount (timerFire s lag id) id = 1 := by
  rcases hfind : s.callbacks.find? (fun e => e.id == id) with _ | e
  · rw [timerFire_miss s lag id hfind]
    have hpend : pendingCount s id = 0 := by
      rw [pendingCount, List.countP_eq_zero]
      exact List.find?_eq_none.mp hfind
    unfold slotCount at hslot
    omega
  · rw [timerFire_hit s lag id e hfind]
    have h0 := (pend_res_of_find?_some s id e hb hfind).2
    unfold resolutionCount at h0 ⊢
    rw [List.countP_append, h0]
    simp [Action.isFor]

/-- A settled-or-pending id stays accounted for through any further step. -/
lemma slotCount_step_of_pos (s : ClientState) (ev : BridgeEvent) (id : String)
    (h : Inv s) (hpos : 1 ≤ slotCount s id) :
    slotCount (step s ev) id = slotCount s id := by
  obtain ⟨hbound, hfresh⟩ := h
  cases ev with
  | call t name args =>
    show slotCount (callFunction s t name args) id = _
    cases hatt : s.webViewAttached
    · exact slotCount_call_detached s t name args hatt id
    · rw [slotCount_call_attached s t name args hatt id]
      have hne : mkId s.messageId ≠ id := by
        intro hc
        have := hfresh s.messageId (Nat.le_refl _)
        rw [hc] at this
        omega
      simp [hne]
  | recv t message =>
    show slotCount (handleMessage s t message) id = _
    by_cases hty : message.type = some "SDK_READY"
    · rw [handleMessage_ready s t message hty]
      rfl
    · rcases hid : message.id with _ | mid
      · rw [handleMessage_no_id s t message hty hid]
      · cases hmt : mid.isEmpty
        · rcases hfind : s.callbacks.find? (fun e => e.id == mid) with _ | e
          · rw [handleMessage_miss s t message mid hty hid hmt hfind]
          · have hps := pend_res_of_find?_some s mid e hbound hfind
            cases herr : strTruthy message.error
            · rw [handleMessage_hit_resolve s t message mid e hty hid hmt
                hfind herr]
              by_cases hidm : id = mid
              · subst hidm
                rw [show ({ s with
                    callbacks := s.callbacks.filter (fun x => x.id != id),
                    log := s.log ++ [.resolved t id message.data] })
                    = hitState s id (.resolved t id message.data) from rfl]
                rw [slotCount_hit_self s id _ (by simp [Action.isFor])]
                unfold slotCount
                omega
              · exact slotCount_hit_other s mid _ id hidm
                  (by simp [Action.isFor]; exact fun hc => absurd hc.symm hidm)
            · rw [handleMessage_hit_reject s t message mid e hty hid hmt
                hfind herr]
              by_cases hidm : id = mid
              · subst hidm
                rw [show ({ s with
                    callbacks := s.callbacks.filter (fun x => x.id != id),
                    log := s.log ++
                      [.rejected t id (message.error.getD "")] })
                    = hitState s id (.rejected t id (message.error.getD ""))
                    from rfl]
                rw [slotCount_hit_self s id _ (by simp [Action.isFor])]
                unfold slotCount
                omega
              · exact slotCount_hit_other s mid _ id hidm
                  (by simp [Action.isFor]; exact fun hc => absurd hc.symm hidm)
        · rw [handleMessage_empty_id s t message mid hty hid hmt]
  | recvMalformed t description => rfl
  | timerFire lag fid =>
    show slotCount (timerFire s lag fid) id = _
    rcases hfind : s.callbacks.find? (fun e => e.id == fid) with _ | e
    · rw [timerFire_miss s lag fid hfind]
    · have hps := pend_res_of_find?_some s fid e hbound hfind
      rw [timerFire_hit s lag fid e hfind]
      by_cases hidm : id = fid
      · subst hidm
        rw [show ({ s with
            callbacks := s.callbacks.filter (fun x => x.id != id),
            log := s.log ++ [.rejected (e.callTime + timeoutMs + lag) id
              ("Timeout calling " ++ e.fname)] })
            = hitState s id (.rejected (e.callTime + timeoutMs + lag) id
              ("Timeout calling " ++ e.fname)) from rfl]
        rw [slotCount_hit_self s id _ (by simp [Action.isFor])]
        unfold slotCount
        omega
      · exact slotCount_hit_other s fid _ id hidm
          (by simp [Action.isFor]; exact fun hc => absurd hc.symm hidm)

lemma slotCount_run_of_pos (s : ClientState) (evs : List BridgeEvent)
    (id : String) (h : Inv s) (hpos : 1 ≤ slotCount s id) :
    slotCount (run s evs) id = slotCount s id := by
  induction evs generalizing s with
  | nil => rfl
  | cons ev evs ih =>
    rw [run_cons, ih (step s ev) (Inv_step s ev h)
      (by rw [slotCount_step_of_pos s ev id h hpos]; exact hpos),
      slotCount_step_of_pos s ev id h hpos]

/-! ## Counter and sent-request bookkeeping -/

lemma handleMessage_preserves (s : ClientState) (t : Nat) (m : Message) :
    (handleMessage s t m).sent = s.sent ∧
    (handleMessage s t m).messageId = s.messageId ∧
    (handleMessage s t m).webViewAttached = s.webViewAttached := by
  unfold handleMessage
  repeat' split
  all_goals simp

lemma timerFire_preserves (s : ClientState) (lag : Nat) (id : String) :
    (timerFire s lag id).sent = s.sent ∧
    (timerFire s lag id).messageId = s.messageId ∧
    (timerFire s lag id).webViewAttached = s.webViewAttached := by
  unfold timerFire
  repeat' split
  all_goals simp

lemma step_attached (s : ClientState) (ev : BridgeEvent) :
    (step s ev).webViewAttached = s.webViewAttached := by
  cases ev with
  | call t name args =>
    show (callFunction s t name args).webViewAttached = _
    unfold callFunction
    repeat' split
    all_goals simp
  | recv t m => exact (handleMessage_preserves s t m).2.2
  | recvMalformed t d => rfl
  | timerFire lag id => exact (timerFire_preserves s lag id).2.2

lemma sent_ids_run (evs : List BridgeEvent) :
    ∀ s : ClientState, s.webViewAttached = true →
      (run s evs).sent.map SentMessage.id
          = s.sent.map SentMessage.id
            ++ (List.range (numCalls evs)).map (fun i => mkId (s.messageId + i)) := by
  induction evs with
  | nil => intro s _; simp [run_nil, numCalls]
  | cons ev evs ih =>
    intro s hatt
    rw [run_cons]
    have hatt' : (step s ev).webViewAttached = true := by
      rw [step_attached]; exact hatt
    rw [ih (step s ev) hatt']
    cases ev with
    | call t name args =>
      rw [show step s (.call t name args) = callFunction s t name args
        from rfl] at *
      rw [callFunction_attached s t name args hatt] at *
      have hnum : numCalls (BridgeEvent.call t name args :: evs)
          = numCalls evs + 1 := by
        simp [numCalls, List.countP_cons]
      rw [hnum]
      simp only [List.map_append, List.map_cons, List.map_nil]
      rw [List.append_assoc]
      congr 1
      rw [List.range_succ_eq_map]
      simp only [List.map_cons, List.map_map, Nat.add_zero]
      rw [List.singleton_append]
      congr 1
      apply List.map_congr_left
      intro i _
      simp only [Function.comp_apply]
      congr 1
      omega
    | recv t m =>
      have h := handleMessage_preserves s t m
      have hnum : numCalls (BridgeEvent.recv t m :: evs) = numCalls evs := by
        simp [numCalls, List.countP_cons]
      rw [hnum, show step s (BridgeEvent.recv t m) = handleMessage s t m
        from rfl, h.1, h.2.1]
    | recvMalformed t d =>
      have hnum : numCalls (BridgeEvent.recvMalformed t d :: evs)
          = numCalls evs := by
        simp [numCalls, List.countP_cons]
      rw [hnum]
      rfl
    | timerFire lag id =>
      have h := timerFire_preserves s lag id
      have hnum : numCalls (BridgeEvent.timerFire lag id :: evs)
          = numCalls evs := by
        simp [numCalls, List.countP_cons]
      rw [hnum, show step s (BridgeEvent.timerFire lag id)
        = timerFire s lag id from rfl, h.1, h.2.1]

/-! ## The claims -/

/-- C1.  At-most-once resolution: in any session trace, each call id's
promise is resolved or rejected at most once; and once an id is in the
pending table, any continuation of the trace in which its 30-second timer
fires (as `callFunction` always schedules) settles it exactly once —
whichever of the response and the timeout wins the race, the loser finds
the table entry already deleted and does nothing. -/
theorem at_most_once_resolution :
    (∀ (evs : List BridgeEvent) (id : String),
      resolutionCount (run (initState true) evs) id ≤ 1) ∧
    (∀ (evs1 evs2 : List BridgeEvent) (lag : Nat) (id : String),
      1 ≤ pendingCount (run (initState true) evs1) id →
      BridgeEvent.timerFire lag id ∈ evs2 →
      resolutionCount (run (initState true) (evs1 ++ evs2)) id = 1) := by
  have hmain : ∀ (evs : List BridgeEvent) (id : String),
      resolutionCount (run (initState true) evs) id ≤ 1 := by
    intro evs id
    have hInv := Inv_run (initState true) evs (Inv_initState true)
    exact Nat.le_trans
      (resolutionCount_le_slotCount (run (initState true) evs) id)
      (hInv.1 id)
  refine ⟨hmain, ?_⟩
  intro evs1 evs2 lag id hpend hmem
  have hInv1 : Inv (run (initState true) evs1) :=
    Inv_run (initState true) evs1 (Inv_initState true)
  have hslot1 : slotCount (run (initState true) evs1) id = 1 := by
    have h1 := hInv1.1 id
    unfold slotCount at *
    omega
  obtain ⟨l1, l2, rfl⟩ := List.append_of_mem hmem
  have hInv2 : Inv (run (run (initState true) evs1) l1) :=
    Inv_run _ l1 hInv1
  have hslot2 : slotCount (run (run (initState true) evs1) l1) id = 1 := by
    rw [slotCount_run_of_pos _ l1 id hInv1 (by omega)]
    exact hslot1
  have hfired : resolutionCount
      (step (run (run (initState true) evs1) l1)
        (.timerFire lag id)) id = 1 :=
    resolutionCount_after_fire _ lag id hInv2.1 hslot2
  have hge : 1 ≤ resolutionCount
      (run (initState true) (evs1 ++ (l1 ++ .timerFire lag id :: l2))) id := by
    rw [run_append, run_append, run_cons]
    exact Nat.le_trans (Nat.le_of_eq hfired.symm)
      (resolutionCount_run_mono _ l2 id)
  have hle := hmain (evs1 ++ (l1 ++ .timerFire lag id :: l2)) id
  omega

/-- Witness for C1: one call, then its timer fires; the promise is settled
exactly once. -/
theorem at_most_once_resolution_witness :
    resolutionCount
      (run (initState true)
        ([.call 0 "initialize" []] ++ [.timerFire 0 (mkId 0)])) (mkId 0)
      = 1 :=
  at_most_once_resolution.2 [.call 0 "initialize" []] [.timerFire 0 (mkId 0)]
    0 (mkId 0) (by decide) (by simp)

/-- C3.  Correlation ids of one session: the ids posted by the calls of any
trace are exactly `msg_0, msg_1, …` in counter order — of the form
`"msg_" ++` the decimal counter value, strictly increasing in the counter
value, and never reused. -/
theorem correlation_ids_monotone :
    ∀ evs : List BridgeEvent,
      (run (initState true) evs).sent.map SentMessage.id
          = (List.range (numCalls evs)).map mkId ∧
      ((run (initState true) evs).sent.map SentMessage.id).Pairwise
        (fun a b => idIndex a < idIndex b) ∧
      ((run (initState true) evs).sent.map SentMessage.id).Nodup := by
  intro evs
  have h := sent_ids_run evs (initState true) rfl
  have hform : (run (initState true) evs).sent.map SentMessage.id
      = (List.range (numCalls evs)).map mkId := by
    rw [h]
    simp [initState]
  refine ⟨hform, ?_, ?_⟩
  · rw [hform, List.pairwise_map]
    have : (List.range (numCalls evs)).Pairwise (· < ·) :=
      List.pairwise_lt_range (numCalls evs)
    apply this.imp
    intro a b hab
    rwa [idIndex_mkId, idIndex_mkId]
  · rw [hform]
    exact (List.nodup_range (numCalls evs)).map mkId_injective

/-- C2.  Happy-path round trip: when the vendor function is found and
returns a value, the server posts exactly `{id, data: result}` keyed by the
request's id, and a client holding a pending entry for that id resolves it
with the response's `data` field, unchanged. -/
theorem happy_path_round_trip :
    ∀ (vsdk : VSDK) (f : VendorFunc) (req : CallRequest) (v : Value)
      (s : ClientState) (t : Nat) (e : PendingEntry),
      vsdk.lookup req.functionName = some f →
      f (req.args.getD []) = .ok v →
      (serverHandleMessage true vsdk req
          = .posted { id := some req.id, data := some v } ∧
       (req.id.isEmpty = false →
        s.callbacks.find? (fun x => x.id == req.id) = some e →
        handleMessage s t { id := some req.id, data := some v }
          = { s with
              callbacks := s.callbacks.filter (fun x => x.id != req.id),
              log := s.log ++ [.resolved t req.id (some v)] })) := by
  intro vsdk f req v s t e hlookup hok
  constructor
  · simp [serverHandleMessage, serverTryBody, hlookup, hok]
  · intro hne hfind
    exact handleMessage_hit_resolve s t
      { id := some req.id, data := some v } req.id e (by simp) rfl hne
      hfind rfl

/-- Witness for C2: a concrete `initialize` call round-trips its result. -/
theorem happy_path_round_trip_witness :
    serverHandleMessage true [("initialize", fun _ => .ok (.str "done"))]
        ⟨"msg_0", "initialize", some []⟩
      = .posted { id := some "msg_0", data := some (.str "done") } ∧
    handleMessage
        { webViewAttached := true, messageId := 1,
          callbacks := [⟨"msg_0", "initialize", 0⟩],
          sent := [⟨"msg_0", "initialize", []⟩],
          log := [], readyLog := [], errorLog := [] } 40
        { id := some "msg_0", data := some (.str "done") }
      = { webViewAttached := true, messageId := 1, callbacks := [],
          sent := [⟨"msg_0", "initialize", []⟩],
          log := [.resolved 40 "msg_0" (some (.str "done"))],
          readyLog := [], errorLog := [] } := by
  have h := happy_path_round_trip
    [("initialize", fun _ => .ok (.str "done"))]
    (fun _ => .ok (.str "done")) ⟨"msg_0", "initialize", some []⟩
    (.str "done")
    { webViewAttached := true, messageId := 1,
      callbacks := [⟨"msg_0", "initialize", 0⟩],
      sent := [⟨"msg_0", "initialize", []⟩],
      log := [], readyLog := [], errorLog := [] } 40
    ⟨"msg_0", "initialize", 0⟩ rfl rfl
  exact ⟨h.1, h.2 rfl rfl⟩

/-- C4.  Timeout: a firing timer that still finds its entry deletes it and
rejects with `Timeout calling <name>` — a message containing the function
name and (case-insensitively) the word "timeout" — at a time no earlier
than the call time plus the 30-second bound, leaving every other pending
entry and every other id's resolutions untouched. -/
theorem timeout_rejection :
    ∀ (s : ClientState) (lag : Nat) (id : String) (e : PendingEntry),
      s.callbacks.find? (fun x => x.id == id) = some e →
      (timerFire s lag id
          = { s with
              callbacks := s.callbacks.filter (fun x => x.id != id),
              log := s.log ++
                [.rejected (e.callTime + timeoutMs + lag) id
                  ("Timeout calling " ++ e.fname)] } ∧
       e.callTime + 30000 ≤ e.callTime + timeoutMs + lag ∧
       containsStr ("Timeout calling " ++ e.fname) e.fname ∧
       containsStr (toLowerStr ("Timeout calling " ++ e.fname)) "timeout" ∧
       (∀ x ∈ s.callbacks, x.id ≠ id → x ∈ (timerFire s lag id).callbacks) ∧
       (∀ i, i ≠ id →
          resolutionCount (timerFire s lag id) i = resolutionCount s i)) := by
  intro s lag id e hfind
  refine ⟨timerFire_hit s lag id e hfind, ?_, ?_, ?_, ?_, ?_⟩
  · simp only [timeoutMs]
    omega
  · exact ⟨"Timeout calling ".data, [], by simp⟩
  · refine ⟨[], " calling ".data ++ e.fname.data.map Char.toLower, ?_⟩
    show (toLowerStr ("Timeout calling " ++ e.fname)).data = _
    have h1 : (toLowerStr ("Timeout calling " ++ e.fname)).data
        = List.map Char.toLower "Timeout calling ".data
          ++ e.fname.data.map Char.toLower := by
      simp [toLowerStr]
    rw [h1]
    rw [show List.map Char.toLower "Timeout calling ".data
      = "timeout".data ++ " calling ".data from by decide]
    simp
  · intro x hx hne
    rw [timerFire_hit s lag id e hfind]
    simp only [List.mem_filter]
    exact ⟨hx, by simp [hne]⟩
  · intro i hne
    rw [timerFire_hit s lag id e hfind]
    show List.countP (Action.isFor i) (s.log ++ _) = _
    rw [List.countP_append]
    have : Action.isFor i
        (.rejected (e.callTime + timeoutMs + lag) id
          ("Timeout calling " ++ e.fname)) = false := by
      simp [Action.isFor]
      exact fun hc => absurd hc.symm hne
    simp [this, resolutionCount]

/-- Witness for C4: a timer fires for a concrete pending `initialize`
call. -/
theorem timeout_rejection_witness :
    timerFire
        { webViewAttached := true, messageId := 1,
          callbacks := [⟨"msg_0", "initialize", 5⟩],
          sent := [⟨"msg_0", "initialize", []⟩],
          log := [], readyLog := [], errorLog := [] } 0 "msg_0"
      = { webViewAttached := true, messageId := 1, callbacks := [],
          sent := [⟨"msg_0", "initialize", []⟩],
          log := [.rejected 30005 "msg_0" "Timeout calling initialize"],
          readyLog := [], errorLog := [] } :=
  (timeout_rejection
    { webViewAttached := true, messageId := 1,
      callbacks := [⟨"msg_0", "initialize", 5⟩],
      sent := [⟨"msg_0", "initialize", []⟩],
      log := [], readyLog := [], errorLog := [] } 0 "msg_0"
    ⟨"msg_0", "initialize", 5⟩ rfl).1

/-- C9.  Unmatched-response safety: an inbound non-ready message whose id
has no pending entry leaves the client state exactly as it was — nothing
is resolved or rejected, the table is unchanged, and `onError` is not
invoked (the handler is a total function; nothing is thrown). -/
theorem unmatched_response_ignored :
    ∀ (s : ClientState) (t : Nat) (message : Message) (mid : String),
      message.type ≠ some "SDK_READY" →
      message.id = some mid →
      s.callbacks.find? (fun e => e.id == mid) = none →
      handleMessage s t message = s := by
  intro s t message mid hty hid hfind
  cases hmt : mid.isEmpty
  · exact handleMessage_miss s t message mid hty hid hmt hfind
  · exact handleMessage_empty_id s t message mid hty hid hmt

/-- Witness for C9: a response for unknown id `msg_5` is dropped while
`msg_0` is pending. -/
theorem unmatched_response_ignored_witness :
    handleMessage
        { webViewAttached := true, messageId := 1,
          callbacks := [⟨"msg_0", "initialize", 0⟩],
          sent := [⟨"msg_0", "initialize", []⟩],
          log := [], readyLog := [], errorLog := [] } 3
        { id := some "msg_5", data := some .null }
      = { webViewAttached := true, messageId := 1,
          callbacks := [⟨"msg_0", "initialize", 0⟩],
          sent := [⟨"msg_0", "initialize", []⟩],
          log := [], readyLog := [], errorLog := [] } :=
  unmatched_response_ignored
    { webViewAttached := true, messageId := 1,
      callbacks := [⟨"msg_0", "initialize", 0⟩],
      sent := [⟨"msg_0", "initialize", []⟩],
      log := [], readyLog := [], errorLog := [] } 3
    { id := some "msg_5", data := some .null } "msg_5" (by simp) rfl rfl

/-! ## Readiness-callback counting -/

lemma callFunction_readyLog (s : ClientState) (t : Nat) (name : String)
    (args : List Value) : (callFunction s t name args).readyLog = s.readyLog := by
  unfold callFunction
  repeat' split
  all_goals simp

lemma handleMessage_readyLog_not_ready (s : ClientState) (t : Nat)
    (m : Message) (hty : m.type ≠ some "SDK_READY") :
    (handleMessage s t m).readyLog = s.readyLog := by
  unfold handleMessage
  rw [if_neg hty]
  repeat' split
  all_goals simp

lemma timerFire_readyLog (s : ClientState) (lag : Nat) (id : String) :
    (timerFire s lag id).readyLog = s.readyLog := by
  unfold timerFire
  repeat' split
  all_goals simp

lemma readyLog_run (evs : List BridgeEvent) :
    ∀ s : ClientState,
      (run s evs).readyLog.length = s.readyLog.length + countReadyRecv evs := by
  induction evs with
  | nil => intro s; simp [run_nil, countReadyRecv]
  | cons ev evs ih =>
    intro s
    rw [run_cons, ih (step s ev)]
    cases ev with
    | call t name args =>
      rw [show step s (.call t name args) = callFunction s t name args
        from rfl, callFunction_readyLog]
      simp [countReadyRecv, List.countP_cons]
    | recv t m =>
      rw [show step s (.recv t m) = handleMessage s t m from rfl]
      by_cases hty : m.type = some "SDK_READY"
      · rw [handleMessage_ready s t m hty]
        have : countReadyRecv (BridgeEvent.recv t m :: evs)
            = countReadyRecv evs + 1 := by
          simp [countReadyRecv, List.countP_cons, hty]
        rw [this]
        simp
        omega
      · rw [handleMessage_readyLog_not_ready s t m hty]
        have : countReadyRecv (BridgeEvent.recv t m :: evs)
            = countReadyRecv evs := by
          simp [countReadyRecv, List.countP_cons, hty]
        rw [this]
    | recvMalformed t d =>
      simp [countReadyRecv, List.countP_cons, step]
    | timerFire lag id =>
      rw [show step s (.timerFire lag id) = timerFire s lag id from rfl,
        timerFire_readyLog]
      simp [countReadyRecv, List.countP_cons]

/-- C7 counterexample: the client has no one-shot guard — two received
`SDK_READY` announcements invoke `onSDKReady` twice, so the callback does
not fire at most once "regardless of how many Ready Announcements are
received". -/
theorem ready_callback_twice :
    ¬ ((run (initState true)
        [.recv 0 (sdkReadyMsg ["initialize"]),
         .recv 1 (sdkReadyMsg ["initialize"])]).readyLog.length ≤ 1) := by
  decide

/-- C7 amended: `onSDKReady` fires exactly once per received `SDK_READY`
announcement (so at most once in a session in which at most one
announcement is received, as a correct server sends). -/
theorem ready_callback_per_announcement :
    ∀ evs : List BridgeEvent,
      (run (initState true) evs).readyLog.length = countReadyRecv evs := by
  intro evs
  rw [readyLog_run evs (initState true)]
  simp [initState]

/-! ## Discovery loop -/

lemma checkSDK_never_found (vsdkAt : Nat → Option VSDK)
    (hnone : ∀ n, vsdkAt n = none) :
    ∀ k ca now, ca + k = maxAttempts → 0 < k →
      checkSDK vsdkAt ca now =
        { posts := [sdkFailMsg], listenersAttached := false,
          attempts := maxAttempts,
          attemptTimes := (List.range k).map (fun i => now + pollDelayMs * i) } := by
  intro k
  induction k with
  | zero => intro ca now _ h0; exact absurd h0 (by omega)
  | succ k ih =>
    intro ca now hsum _
    rw [checkSDK]
    simp only [hnone]
    by_cases hk : k = 0
    · subst hk
      rw [dif_neg (by simp only [maxAttempts] at hsum ⊢; omega)]
      have ha : ca + 1 = maxAttempts := by omega
      simp [ha, List.range_succ]
    · rw [dif_pos (by simp only [maxAttempts] at hsum ⊢; omega)]
      rw [ih (ca + 1) (now + pollDelayMs) (by omega) (by omega)]
      have hmap : (List.range (k + 1)).map (fun i => now + pollDelayMs * i)
          = now :: (List.range k).map
              (fun i => now + pollDelayMs + pollDelayMs * i) := by
        rw [List.range_succ_eq_map]
        simp only [List.map_cons, List.map_map, Nat.mul_zero, Nat.add_zero]
        refine congrArg (List.cons now) ?_
        apply List.map_congr_left
        intro i _
        simp only [Function.comp_apply, Nat.mul_succ]
        omega
      rw [hmap]

lemma checkSDK_posts_bound (vsdkAt : Nat → Option VSDK) :
    ∀ k ca now, maxAttempts - ca ≤ k → ca < maxAttempts →
      (checkSDK vsdkAt ca now).attempts ≤ maxAttempts ∧
      (checkSDK vsdkAt ca now).posts.length = 1 := by
  intro k
  induction k with
  | zero => intro ca now h1 h2; omega
  | succ k ih =>
    intro ca now h1 h2
    rw [checkSDK]
    rcases hv : vsdkAt (ca + 1) with _ | table
    · simp only [hv]
      by_cases hlt : ca + 1 < maxAttempts
      · rw [dif_pos hlt]
        exact ih (ca + 1) (now + pollDelayMs) (by omega) hlt
      · rw [dif_neg hlt]
        refine ⟨?_, rfl⟩
        show ca + 1 ≤ maxAttempts
        omega
    · simp only [hv]
      refine ⟨?_, rfl⟩
      show ca + 1 ≤ maxAttempts
      omega

/-- C8.  Discovery bound: any discovery run makes at most 20 poll attempts
and posts exactly one Ready Announcement; when the vendor service never
appears, the run is exactly 20 attempts at 500 ms spacing (attempt `i + 1`
at time `500 * i`, ending at 9.5 s), posts exactly the one failure
announcement, and never attaches the call listener — and, the loop having
returned, polls no further. -/
theorem discovery_bounded :
    ∀ vsdkAt : Nat → Option VSDK,
      ((checkSDK vsdkAt 0 0).attempts ≤ maxAttempts ∧
       (checkSDK vsdkAt 0 0).posts.length = 1) ∧
      ((∀ n, vsdkAt n = none) →
        checkSDK vsdkAt 0 0 =
          { posts := [sdkFailMsg], listenersAttached := false,
            attempts := maxAttempts,
            attemptTimes := (List.range maxAttempts).map
              (fun i => pollDelayMs * i) }) := by
  intro vsdkAt
  constructor
  · exact checkSDK_posts_bound vsdkAt maxAttempts 0 0 (by omega) (by decide)
  · intro hnone
    rw [checkSDK_never_found vsdkAt hnone maxAttempts 0 0 (by omega)
      (by decide)]
    simp

/-- Witness for C8: with a vendor service that never appears, discovery
stops at exactly 20 attempts with one failure post and no listeners. -/
theorem discovery_bounded_witness :
    checkSDK (fun _ => none) 0 0 =
      { posts := [sdkFailMsg], listenersAttached := false,
        attempts := maxAttempts,
        attemptTimes := (List.range maxAttempts).map
          (fun i => pollDelayMs * i) } :=
  (discovery_bounded (fun _ => none)).2 (fun _ => rfl)

/-- C10.  A discovery failure reaches the host only as `onSDKReady []`:
the failure announcement carries an error string but no `data`, and the
client's handler passes `message.data?.methods || []` — the empty list —
to `onSDKReady`, discards the error string, touches neither the pending
table nor the logs, and never invokes `onError`; the effect is identical
to a success announcement carrying zero methods. -/
theorem discovery_failure_as_empty_ready :
    ∀ (vsdkAt : Nat → Option VSDK) (s : ClientState) (t u : Nat),
      (∀ n, vsdkAt n = none) →
      ((checkSDK vsdkAt 0 0).posts = [sdkFailMsg] ∧
       sdkFailMsg.data = none ∧
       sdkFailMsg.error = some "VSDK not found" ∧
       handleMessage s t sdkFailMsg
         = { s with readyLog := s.readyLog ++ [Value.arr []] } ∧
       handleMessage s t sdkFailMsg = handleMessage s u (sdkReadyMsg [])) := by
  intro vsdkAt s t u hnone
  refine ⟨?_, rfl, rfl, ?_, ?_⟩
  · rw [checkSDK_never_found vsdkAt hnone maxAttempts 0 0 (by omega)
      (by decide)]
  · rw [handleMessage_ready s t sdkFailMsg rfl]
    rfl
  · rw [handleMessage_ready s t sdkFailMsg rfl,
      handleMessage_ready s u (sdkReadyMsg []) rfl]
    rfl

/-- Witness for C10: at the fresh client, the failure announcement and the
zero-method success announcement produce the same single `onSDKReady []`
invocation. -/
theorem discovery_failure_as_empty_ready_witness :
    handleMessage (initState true) 0 sdkFailMsg
      = { initState true with readyLog := [Value.arr []] } ∧
    handleMessage (initState true) 0 sdkFailMsg
      = handleMessage (initState true) 1 (sdkReadyMsg []) :=
  ⟨((discovery_failure_as_empty_ready (fun _ => none) (initState true) 0 1
      (fun _ => rfl)).2.2.2.1),
   ((discovery_failure_as_empty_ready (fun _ => none) (initState true) 0 1
      (fun _ => rfl)).2.2.2.2)⟩

/-- C5 (documents the code bug).  For an unknown function name the `try`
body of the injected handler does raise the intended error — naming the
function and comma-joining the currently available method names — and the
`catch` block would serialize it as `{id, error}`; but the `catch`
references the out-of-scope `message`, raises a `ReferenceError`, and
posts nothing, so the client never receives this response. -/
theorem function_not_found_response_lost :
    serverTryBody true demoVSDK ⟨"msg_0", "doesNotExist", some []⟩
      = .error (jsError
          "Function doesNotExist not found. Available: initialize, getCards, checkout") ∧
    intendedCatchResponse ⟨"msg_0", "doesNotExist", some []⟩
        (jsError
          "Function doesNotExist not found. Available: initialize, getCards, checkout")
      = { id := some "msg_0",
          error := some
            "Function doesNotExist not found. Available: initialize, getCards, checkout" } ∧
    serverHandleMessage true demoVSDK ⟨"msg_0", "doesNotExist", some []⟩
      = .uncaughtReferenceError := by
  refine ⟨rfl, rfl, rfl⟩

/-- C6 (documents the code bug).  When the vendor function raises, the
`try` body propagates the vendor's exception with its message unmodified
(`error.message || String(error)` would put exactly `"boom"` on the wire,
and a client holding the pending entry would reject with `"boom"`); but
the `catch` block's out-of-scope `message` reference raises a
`ReferenceError` and nothing is posted. -/
theorem invocation_error_response_lost :
    serverTryBody true throwingVSDK ⟨"msg_0", "initialize", some []⟩
      = .error (jsError "boom") ∧
    (jsError "boom").wireMsg = "boom" ∧
    intendedCatchResponse ⟨"msg_0", "initialize", some []⟩ (jsError "boom")
      = { id := some "msg_0", error := some "boom" } ∧
    serverHandleMessage true throwingVSDK ⟨"msg_0", "initialize", some []⟩
      = .uncaughtReferenceError ∧
    handleMessage
        { webViewAttached := true, messageId := 1,
          callbacks := [⟨"msg_0", "initialize", 0⟩],
          sent := [⟨"msg_0", "initialize", []⟩],
          log := [], readyLog := [], errorLog := [] } 7
        { id := some "msg_0", error := some "boom" }
      = { webViewAttached := true, messageId := 1, callbacks := [],
          sent := [⟨"msg_0", "initialize", []⟩],
          log := [.rejected 7 "msg_0" "boom"],
          readyLog := [], errorLog := [] } := by
  refine ⟨rfl, rfl, rfl, rfl, ?_⟩
  exact handleMessage_hit_reject
    { webViewAttached := true, messageId := 1,
      callbacks := [⟨"msg_0", "initialize", 0⟩],
      sent := [⟨"msg_0", "initialize", []⟩],
      log := [], readyLog := [], errorLog := [] } 7
    { id := some "msg_0", error := some "boom" } "msg_0"
    ⟨"msg_0", "initialize", 0⟩ (by simp) rfl rfl rfl rfl

end CTP
